import Mathlib

/-!
Verification of the event-span projection engine of the Lodgify calendar
embed (`app.js`).  Calendar dates are modelled as integer day numbers
(days since the Unix epoch): every date produced by `parseDate` /
`makeUTCDate` in the source is a UTC midnight, and all arithmetic on such
dates (`addDays`, `diffDays`, `halfIndex`) is exact whole-day arithmetic,
so the millisecond representation factors through day numbers.
-/

namespace CalendarEmbed

/-- Day number (days since 1970-01-01) of the proleptic-Gregorian civil date
`(y, m, d)`, `m` 1-based in `1..12`, `d` 1-based (values outside the month
act as a plain day offset).  This is the day-granularity arithmetic
performed by JavaScript `Date.UTC` inside `makeUTCDate`. -/
def daysFromCivil (y m d : Int) : Int :=
  let y2 := if m ≤ 2 then y - 1 else y
  let era := Int.ediv y2 400
  let yoe := y2 - era * 400
  let mp := if m > 2 then m - 3 else m + 9
  let doy := Int.ediv (153 * mp + 2) 5 + d - 1
  let doe := yoe * 365 + Int.ediv yoe 4 - Int.ediv yoe 100 + doy
  era * 146097 + doe - 719468

/-- Source `makeUTCDate(year, month, day)`: `month` is 0-based and, as in
`Date.UTC`, may lie outside `0..11` (whole years are carried). -/
def makeUTCDate (year month day : Int) : Int :=
  daysFromCivil (year + Int.ediv month 12) (Int.emod month 12 + 1) day

/-- Number of days in the 0-based `month` of `year`: the day distance
between consecutive month starts. -/
def daysInMonth (year month : Int) : Int :=
  makeUTCDate year (month + 1) 1 - makeUTCDate year month 1

example : makeUTCDate 1970 0 1 = 0 := by decide
example : makeUTCDate 2026 0 1 = 20454 := by decide
example : daysInMonth 2026 0 = 31 := by decide
example : daysInMonth 2026 1 = 28 := by decide
example : daysInMonth 2024 1 = 29 := by decide
example : daysInMonth 2025 11 = 31 := by decide

/-- One of the two occupancy units of a calendar day.  The source encodes
this as the strings `'am'` / `'pm'`. -/
inductive Half where
  | am
  | pm
deriving DecidableEq, Repr

/-- Source event record: `{ uid, type, start, end, summary }`, with `start`
and `end` already parsed to day numbers (source `parseDate`). -/
structure Event where
  uid : String
  type : String
  start : Int
  «end» : Int
  summary : String
deriving DecidableEq, Repr

/-- Result record of `computeEventSpan`: a half-open half-day interval
`[startHalf, endHalf)` in the window's 1-based half-day index space. -/
structure Span where
  startHalf : Int
  endHalf : Int
deriving DecidableEq, Repr

/-- Source `halfIndex(dateObj, rangeStart, half)` (app.js lines 90-93):
the whole-day difference doubled, plus 2 for the PM half and 1 for the AM
half. -/
def halfIndex (dateObj rangeStart : Int) (half : Half) : Int :=
  let diffDays := dateObj - rangeStart
  diffDays * 2 + (if half = Half.pm then 2 else 1)

/-- Source `computeEventSpan(event, rangeStart, rangeEndExclusive,
reservationCheckouts)` (app.js lines 155-185).  Returns `none` when the
event misses the window, otherwise the raw half-day span record (possibly
degenerate — the caller filters `endHalf ≤ startHalf`). -/
def computeEventSpan (event : Event) (rangeStart rangeEndExclusive : Int)
    (reservationCheckouts : List Int) : Option Span :=
  let eventStart := event.start
  let eventEnd := event.«end»
  if eventEnd ≤ rangeStart ∨ eventStart ≥ rangeEndExclusive then
    none
  else
    let displayStart := if eventStart < rangeStart then rangeStart else eventStart
    let displayEnd := if eventEnd > rangeEndExclusive then rangeEndExclusive else eventEnd
    let days := rangeEndExclusive - rangeStart
    if event.type = "closed" then
      let startsOnCheckout := event.start ∈ reservationCheckouts
      let startHalf :=
        halfIndex displayStart rangeStart (if startsOnCheckout then Half.pm else Half.am)
      let endHalf :=
        if eventEnd ≥ rangeEndExclusive then days * 2 + 1
        else halfIndex displayEnd rangeStart Half.am
      some ⟨startHalf, endHalf⟩
    else
      let startHalf :=
        if eventStart < rangeStart then halfIndex rangeStart rangeStart Half.am
        else halfIndex displayStart rangeStart Half.pm
      let endHalf :=
        if eventEnd ≥ rangeEndExclusive then days * 2 + 1
        else halfIndex displayEnd rangeStart Half.am + 1
      some ⟨startHalf, endHalf⟩

/-- The projection as consumed by the rolling-window renderer (app.js lines
321-325): `computeEventSpan` followed by the degenerate-interval filter
`if (endHalf <= startHalf) return`.  This is the spec's `project`. -/
def project (event : Event) (rangeStart rangeEndExclusive : Int)
    (reservationCheckouts : List Int) : Option Span :=
  match computeEventSpan event rangeStart rangeEndExclusive reservationCheckouts with
  | none => none
  | some span => if span.endHalf ≤ span.startHalf then none else some span

/-- The month renderer's inline per-week projection (app.js lines 573-597):
each calendar week is a 7-day window `[weekStart, weekStart + 7)`; the
event is skipped (`none`) when it misses the week, when clipping leaves
nothing, or when the column interval is degenerate. -/
def weekEventCol (event : Event) (weekStart : Int)
    (reservationCheckouts : List Int) : Option Span :=
  let rangeStart := weekStart
  let rangeEndExclusive := weekStart + 7
  if event.«end» ≤ weekStart ∨ event.start ≥ rangeEndExclusive then
    none
  else
    let displayStart := if event.start < rangeStart then rangeStart else event.start
    let displayEnd := if event.«end» > rangeEndExclusive then rangeEndExclusive else event.«end»
    if displayEnd ≤ displayStart then
      none
    else if event.type = "closed" then
      let startsOnCheckout := event.start ∈ reservationCheckouts
      let colStart :=
        halfIndex displayStart rangeStart (if startsOnCheckout then Half.pm else Half.am)
      let colEnd :=
        if event.«end» ≥ rangeEndExclusive then 7 * 2 + 1
        else halfIndex displayEnd rangeStart Half.am
      if colEnd ≤ colStart then none else some ⟨colStart, colEnd⟩
    else
      let colStart :=
        if event.start < rangeStart then halfIndex rangeStart rangeStart Half.am
        else halfIndex displayStart rangeStart Half.pm
      let colEnd :=
        if event.«end» ≥ rangeEndExclusive then 7 * 2 + 1
        else halfIndex displayEnd rangeStart Half.am + 1
      if colEnd ≤ colStart then none else some ⟨colStart, colEnd⟩

/-- Rolling-window renderer bookkeeping (app.js lines 303-312): start dates
of the property's non-closed events. -/
def reservationStarts (events : List Event) : List Int :=
  (events.filter fun e => e.type != "closed").map fun e => e.start

/-- Rolling-window renderer bookkeeping (app.js lines 303-312): end dates
of the property's non-closed events (the same dates also populate the
`reservationCheckouts` set fed to `computeEventSpan`). -/
def reservationEnds (events : List Event) : List Int :=
  (events.filter fun e => e.type != "closed").map fun e => e.«end»

/-- Rolling-window renderer quick-turn set (app.js lines 314-316): plain
date-set intersection of reservation start dates and reservation end
dates, with no identity comparison. -/
def quickTurns (events : List Event) : List Int :=
  (reservationStarts events).filter fun dateStr => (reservationEnds events).contains dateStr

/-- Month renderer bookkeeping (app.js lines 505-512): the uids of the
property's non-closed events starting on day `d`
(`reservationStarts.get(d)` in the source's Map of Sets). -/
def startUids (events : List Event) (d : Int) : List String :=
  (events.filter fun e => e.type != "closed" && e.start == d).map fun e => e.uid

/-- Month renderer bookkeeping (app.js lines 505-512): the uids of the
property's non-closed events ending on day `d`
(`reservationEnds.get(d)` in the source's Map of Sets). -/
def endUids (events : List Event) (d : Int) : List String :=
  (events.filter fun e => e.type != "closed" && e.«end» == d).map fun e => e.uid

/-- Month renderer quick-turn classification (app.js lines 513-519): day
`d` qualifies when some reservation ends on `d` (the Map has the key) and
some uid arriving on `d` is absent from the uids checking out on `d`. -/
def monthQuickTurn (events : List Event) (d : Int) : Bool :=
  !(endUids events d).isEmpty &&
    (startUids events d).any fun id => !((endUids events d).contains id)

/-- Replace an event's `type` field, keeping everything else
(`{ ...event, type }`). -/
def withType (e : Event) (t : String) : Event :=
  ⟨e.uid, t, e.start, e.«end», e.summary⟩

/-- The day argument of `makeUTCDate` acts as a plain day offset from the
first of the (normalized) month. -/
theorem makeUTCDate_day_offset (y m k : Int) :
    makeUTCDate y m k = makeUTCDate y m 1 + (k - 1) := by
  simp only [makeUTCDate, daysFromCivil]
  ring

/-- C2: `halfIndex` is exactly `(date − rangeStart) * 2 + (PM ? 2 : 1)`;
it is translation invariant under shifting date and window start by the
same `k` days; and moving the window start by one whole civil month shifts
every index by exactly (days in that month) × 2, whatever day-of-month `k`
the window is anchored on. -/
theorem halfIndex_affine_translation_invariant_month_shift :
    (∀ (d r : Int) (h : Half),
      halfIndex d r h = (d - r) * 2 + (if h = Half.pm then 2 else 1)) ∧
    (∀ (d r k : Int) (h : Half),
      halfIndex (d + k) (r + k) h = halfIndex d r h) ∧
    (∀ (d y m k : Int) (h : Half),
      halfIndex d (makeUTCDate y m k) h
        = halfIndex d (makeUTCDate y (m + 1) k) h + daysInMonth y m * 2) := by
  refine ⟨fun d r h => rfl, fun d r k h => ?_, fun d y m k h => ?_⟩
  · simp only [halfIndex]
    ring
  · simp only [halfIndex, daysInMonth]
    rw [makeUTCDate_day_offset y m k, makeUTCDate_day_offset y (m + 1) k,
      makeUTCDate_day_offset y (m + 1) 1]
    ring

/-- Unfolding lemma: `project` forwards a non-degenerate computed span. -/
theorem project_eq_some (e : Event) (r E : Int) (c : List Int) (s : Span)
    (h : computeEventSpan e r E c = some s) (hlt : s.startHalf < s.endHalf) :
    project e r E c = some s := by
  unfold project
  rw [h]
  exact if_neg (by omega)

/-- C1: a reservation lying fully inside the window (`rangeStart ≤ start`,
`end < rangeEndExclusive`) with `start < end` projects to
`[halfIndex(start, rangeStart, PM), halfIndex(end, rangeStart, AM) + 1)`:
occupancy begins at the arrival day's PM slot and includes the checkout
day's AM slot. -/
theorem reservation_inside_window_span (event : Event)
    (rangeStart rangeEndExclusive : Int) (cks : List Int)
    (htype : event.type = "reservation")
    (hlo : rangeStart ≤ event.start) (hhi : event.«end» < rangeEndExclusive)
    (hlt : event.start < event.«end») :
    project event rangeStart rangeEndExclusive cks =
      some ⟨halfIndex event.start rangeStart Half.pm,
            halfIndex event.«end» rangeStart Half.am + 1⟩ := by
  have hspan : computeEventSpan event rangeStart rangeEndExclusive cks =
      some ⟨halfIndex event.start rangeStart Half.pm,
            halfIndex event.«end» rangeStart Half.am + 1⟩ := by
    simp only [computeEventSpan, htype]
    rw [if_neg (by omega)]
    rw [if_neg (by simp)]
    rw [if_neg (by omega), if_neg (by omega), if_neg (by omega), if_neg (by omega)]
  exact project_eq_some _ _ _ _ _ hspan (by simp [halfIndex]; omega)

/-- C1 witness: the spec's own scenario — window Jan 29 to Feb 2 2026
(5 days), reservation Jan 30 → Feb 1 projects to `[4, 8)`. -/
theorem reservation_inside_window_span_witness :
    project ⟨"r1", "reservation", 20483, 20485, ""⟩ 20482 20487 [] =
      some ⟨halfIndex 20483 20482 Half.pm, halfIndex 20485 20482 Half.am + 1⟩ :=
  reservation_inside_window_span ⟨"r1", "reservation", 20483, 20485, ""⟩
    20482 20487 [] rfl (by decide) (by decide) (by decide)

set_option maxHeartbeats 1600000 in
/-- C3: a closed event whose start date is one of the property's
reservation checkout dates gets its start half at the PM slot of the
clipped start day, and at the AM slot when it is not a checkout date — in
the shared projector and in the month renderer's week slices alike. -/
theorem closed_event_checkout_start_half (event : Event)
    (rangeStart rangeEndExclusive weekStart : Int) (cks : List Int)
    (htype : event.type = "closed") :
    (∀ s : Span, computeEventSpan event rangeStart rangeEndExclusive cks = some s →
      s.startHalf =
        halfIndex (if event.start < rangeStart then rangeStart else event.start)
          rangeStart (if event.start ∈ cks then Half.pm else Half.am)) ∧
    (∀ s : Span, weekEventCol event weekStart cks = some s →
      s.startHalf =
        halfIndex (if event.start < weekStart then weekStart else event.start)
          weekStart (if event.start ∈ cks then Half.pm else Half.am)) := by
  constructor <;> intro s hs
  · simp only [computeEventSpan, htype, halfIndex] at hs
    simp only [halfIndex]
    split_ifs at hs ⊢ <;>
      (injection hs with h9; subst h9; dsimp only; try omega)
  · simp only [weekEventCol, htype, halfIndex] at hs
    simp only [halfIndex]
    split_ifs at hs ⊢ <;>
      (injection hs with h9; subst h9; dsimp only; try omega)

/-- C3 witness: closed period Feb 1 → Feb 3 2026 in a window starting
Jan 30, with Feb 1 a reservation checkout date: the start half is the PM
slot of Feb 1 in both renderers (window day numbers: Jan 30 = 20483). -/
theorem closed_event_checkout_start_half_witness :
    ((Span.mk 6 9).startHalf =
      halfIndex (if (20485 : Int) < 20483 then 20483 else 20485) 20483
        (if (20485 : Int) ∈ [(20485 : Int)] then Half.pm else Half.am)) ∧
    ((Span.mk 6 9).startHalf =
      halfIndex (if (20485 : Int) < 20483 then 20483 else 20485) 20483
        (if (20485 : Int) ∈ [(20485 : Int)] then Half.pm else Half.am)) := by
  have h := closed_event_checkout_start_half ⟨"c1", "closed", 20485, 20487, ""⟩
    20483 20493 20483 [20485] rfl
  exact ⟨h.1 ⟨6, 9⟩ (by decide), h.2 ⟨6, 9⟩ (by decide)⟩

/-- C4: whenever an event's end reaches or passes the window boundary, the
computed `endHalf` is `totalHalves + 1` with
`totalHalves = (rangeEndExclusive - rangeStart) * 2`, no matter how far
past the boundary the end lies and for both event types. -/
theorem end_past_window_clamped (event : Event)
    (rangeStart rangeEndExclusive : Int) (cks : List Int)
    (hend : rangeEndExclusive ≤ event.«end») :
    ∀ s : Span, computeEventSpan event rangeStart rangeEndExclusive cks = some s →
      s.endHalf = (rangeEndExclusive - rangeStart) * 2 + 1 := by
  intro s hs
  simp only [computeEventSpan, halfIndex] at hs
  split_ifs at hs <;>
    (injection hs with h9; subst h9; dsimp only; try omega)

/-- C4 witness: a reservation running 100 days past a 10-day window still
ends at half index `10 * 2 + 1 = 21`. -/
theorem end_past_window_clamped_witness : (Span.mk 1 21).endHalf = (10 - 0) * 2 + 1 :=
  end_past_window_clamped ⟨"r2", "reservation", -5, 110, ""⟩ 0 10 [] (by decide)
    ⟨1, 21⟩ (by decide)

/-- C7: when the computed span is degenerate (`endHalf ≤ startHalf`), the
projection used by the renderer returns `none` rather than a reversed or
zero-width interval. -/
theorem degenerate_span_projects_none (event : Event) (r E : Int) (cks : List Int)
    (s : Span) (hs : computeEventSpan event r E cks = some s)
    (hdeg : s.endHalf ≤ s.startHalf) :
    project event r E cks = none := by
  unfold project
  rw [hs]
  exact if_pos hdeg

/-- C7 witness: a zero-length closed event inside the window computes the
degenerate span `[7, 7)` and projects to `none`. -/
theorem degenerate_span_projects_none_witness :
    project ⟨"c0", "closed", 3, 3, ""⟩ 0 10 [] = none :=
  degenerate_span_projects_none ⟨"c0", "closed", 3, 3, ""⟩ 0 10 [] ⟨7, 7⟩
    (by decide) (by decide)

/-- C8: for a valid window and a positive-length event, the projection
returns `none` exactly when the event misses the window: `end ≤ rangeStart`
or `start ≥ rangeEndExclusive`. -/
theorem project_none_iff_no_overlap (event : Event)
    (rangeStart rangeEndExclusive : Int) (cks : List Int)
    (hwin : rangeStart < rangeEndExclusive)
    (hlen : event.start < event.«end») :
    project event rangeStart rangeEndExclusive cks = none ↔
      event.«end» ≤ rangeStart ∨ event.start ≥ rangeEndExclusive := by
  constructor
  · intro h
    by_contra hno
    rcases hsp : computeEventSpan event rangeStart rangeEndExclusive cks with _ | s
    · simp only [computeEventSpan] at hsp
      split_ifs at hsp
    · unfold project at h
      rw [hsp] at h
      dsimp only at h
      split_ifs at h with hdeg
      simp only [computeEventSpan, halfIndex] at hsp
      split_ifs at hsp <;>
        first
          | (injection hsp with h9; subst h9; dsimp only at hdeg; omega)
          | injection hsp
  · intro h
    have hnone : computeEventSpan event rangeStart rangeEndExclusive cks = none := by
      simp only [computeEventSpan]
      rw [if_pos h]
    unfold project
    rw [hnone]

/-- C8 witness: a reservation lying wholly after a 10-day window projects
to `none`, and the no-overlap test is the reason. -/
theorem project_none_iff_no_overlap_witness :
    project ⟨"r4", "reservation", 20, 30, ""⟩ 0 10 [] = none ↔
      (30 : Int) ≤ 0 ∨ (20 : Int) ≥ 10 :=
  project_none_iff_no_overlap ⟨"r4", "reservation", 20, 30, ""⟩ 0 10 []
    (by decide) (by decide)

/-- C9: an event whose type is neither `reservation` nor `closed` is
projected without failure, identically to the same event typed
`reservation`. -/
theorem unknown_type_projects_as_reservation (event : Event)
    (rangeStart rangeEndExclusive : Int) (cks : List Int)
    (h1 : event.type ≠ "reservation") (h2 : event.type ≠ "closed") :
    computeEventSpan event rangeStart rangeEndExclusive cks =
      computeEventSpan (withType event ("reservation")) rangeStart rangeEndExclusive cks ∧
    project event rangeStart rangeEndExclusive cks =
      project (withType event ("reservation")) rangeStart rangeEndExclusive cks := by
  have hc : computeEventSpan event rangeStart rangeEndExclusive cks =
      computeEventSpan (withType event ("reservation")) rangeStart rangeEndExclusive cks := by
    simp only [computeEventSpan, withType]
    split_ifs <;> simp_all
  refine ⟨hc, ?_⟩
  unfold project
  rw [hc]

/-- C9 witness: an event of type `unknown` projects exactly like the same
event of type `reservation`. -/
theorem unknown_type_projects_as_reservation_witness :
    computeEventSpan ⟨"u1", "unknown", 2, 4, ""⟩ 0 10 [] =
      computeEventSpan (withType ⟨"u1", "unknown", 2, 4, ""⟩ ("reservation")) 0 10 [] ∧
    project ⟨"u1", "unknown", 2, 4, ""⟩ 0 10 [] =
      project (withType ⟨"u1", "unknown", 2, 4, ""⟩ ("reservation")) 0 10 [] :=
  unknown_type_projects_as_reservation ⟨"u1", "unknown", 2, 4, ""⟩ 0 10 []
    (by decide) (by decide)

/-- C10: every span computed against a valid window stays inside the
window's half-day index space: `1 ≤ startHalf` and
`endHalf ≤ totalHalves + 1` with
`totalHalves = (rangeEndExclusive - rangeStart) * 2`. -/
theorem span_within_window_bounds (event : Event)
    (rangeStart rangeEndExclusive : Int) (cks : List Int)
    (hwin : rangeStart < rangeEndExclusive) (s : Span)
    (hs : computeEventSpan event rangeStart rangeEndExclusive cks = some s) :
    1 ≤ s.startHalf ∧ s.endHalf ≤ (rangeEndExclusive - rangeStart) * 2 + 1 := by
  simp only [computeEventSpan, halfIndex] at hs
  split_ifs at hs <;>
    (injection hs with h9; subst h9; dsimp only; omega)

/-- C10 witness: a reservation over days 2..4 of a 10-day window yields
the span `[6, 10)`, inside `[1, 21]`. -/
theorem span_within_window_bounds_witness :
    1 ≤ (Span.mk 6 10).startHalf ∧ (Span.mk 6 10).endHalf ≤ (10 - 0) * 2 + 1 :=
  span_within_window_bounds ⟨"r3", "reservation", 2, 4, ""⟩ 0 10 [] (by decide)
    ⟨6, 10⟩ (by decide)

/-- C5 counterexample: a closed event starting before the window whose
start date is listed among the reservation checkout dates does NOT get the
full-window interval `[1, totalHalves + 1)`: with window `[0, 5)` and the
closed event `[-1, 10)` whose start `-1` is a checkout date, the projected
interval is `[2, 11)`, not `[1, 11)`. -/
theorem full_overlap_counterexample :
    (⟨"c2", "closed", -1, 10, ""⟩ : Event).start < (0 : Int) ∧
    (5 : Int) ≤ (⟨"c2", "closed", -1, 10, ""⟩ : Event).«end» ∧
    project ⟨"c2", "closed", -1, 10, ""⟩ 0 5 [-1] = some ⟨2, 11⟩ ∧
    project ⟨"c2", "closed", -1, 10, ""⟩ 0 5 [-1] ≠
      some ⟨halfIndex 0 0 Half.am, (5 - 0) * 2 + 1⟩ := by
  refine ⟨by decide, by decide, by decide, by decide⟩

/-- C5 amended: an event of either type whose start lies strictly before
the window and whose end lies at or past the window end projects to the
full window `[1, totalHalves + 1)` — except that a closed event whose
start date is in the checkout-date set instead starts at the PM slot of
the first visible day, giving `[2, totalHalves + 1)`. -/
theorem full_overlap_projects_full_window (event : Event)
    (rangeStart rangeEndExclusive : Int) (cks : List Int)
    (hwin : rangeStart < rangeEndExclusive)
    (hs : event.start < rangeStart) (he : rangeEndExclusive ≤ event.«end») :
    project event rangeStart rangeEndExclusive cks =
      some ⟨if event.type = "closed" ∧ event.start ∈ cks then 2 else 1,
            (rangeEndExclusive - rangeStart) * 2 + 1⟩ := by
  have hspan : computeEventSpan event rangeStart rangeEndExclusive cks =
      some ⟨if event.type = "closed" ∧ event.start ∈ cks then 2 else 1,
            (rangeEndExclusive - rangeStart) * 2 + 1⟩ := by
    simp only [computeEventSpan, halfIndex]
    split_ifs <;>
      first
        | omega
        | (simp only [Option.some.injEq, Span.mk.injEq]; constructor <;> omega)
        | simp_all
  refine project_eq_some _ _ _ _ _ hspan ?_
  dsimp only
  split_ifs <;> omega

/-- C5 amended witness: a reservation spanning the whole window `[0, 5)`
projects to `[1, 11)`. -/
theorem full_overlap_projects_full_window_witness :
    project ⟨"r5", "reservation", -3, 8, ""⟩ 0 5 [] =
      some ⟨if ("reservation" = "closed" ∧ (-3 : Int) ∈ ([] : List Int)) then 2 else 1,
            (5 - 0) * 2 + 1⟩ :=
  full_overlap_projects_full_window ⟨"r5", "reservation", -3, 8, ""⟩ 0 5 []
    (by decide) (by decide) (by decide)

/-- The quick-turn rule as the spec words it: date `d` qualifies exactly
when some reservation's checkout falls on `d` and some reservation with a
different uid arrives on `d`.  Stated from the spec, for comparison with
the two renderer implementations. -/
def specQuickTurn (events : List Event) (d : Int) : Bool :=
  events.any fun e1 => events.any fun e2 =>
    e1.type != "closed" && e2.type != "closed" &&
      e1.«end» == d && e2.start == d && e1.uid != e2.uid

/-- C6 counterexample: the renderers do not implement the claimed rule.
A single degenerate reservation (`start = end = 5`) makes day 5 a
quick-turn date in the rolling-window renderer although the claim says it
never qualifies; and with reservations `a` (start = end = 5) and `b`
(1 → 5), day 5 satisfies the claimed different-uid rule (checkout of `b`,
arrival of `a`) yet the month renderer does not mark it. -/
theorem quick_turn_counterexample :
    ((5 : Int) ∈ quickTurns [(⟨"a", "reservation", 5, 5, ""⟩ : Event)] ∧
      specQuickTurn [(⟨"a", "reservation", 5, 5, ""⟩ : Event)] 5 = false) ∧
    (monthQuickTurn
        [(⟨"a", "reservation", 5, 5, ""⟩ : Event), (⟨"b", "reservation", 1, 5, ""⟩ : Event)] 5 = false ∧
      specQuickTurn
        [(⟨"a", "reservation", 5, 5, ""⟩ : Event), (⟨"b", "reservation", 1, 5, ""⟩ : Event)] 5 = true) := by
  exact ⟨⟨by decide, by decide⟩, ⟨by decide, by decide⟩⟩

/-- Membership in the month renderer's per-day arrival-uid set. -/
theorem mem_startUids (events : List Event) (d : Int) (u : String) :
    u ∈ startUids events d ↔
      ∃ e ∈ events, e.type ≠ "closed" ∧ e.start = d ∧ e.uid = u := by
  simp only [startUids, List.mem_map, List.mem_filter, Bool.and_eq_true, bne_iff_ne,
    ne_eq, beq_iff_eq]
  constructor
  · rintro ⟨e, ⟨he, ht, hd⟩, hu⟩
    exact ⟨e, he, ht, hd, hu⟩
  · rintro ⟨e, he, ht, hd, hu⟩
    exact ⟨e, ⟨he, ht, hd⟩, hu⟩

/-- Membership in the month renderer's per-day checkout-uid set. -/
theorem mem_endUids (events : List Event) (d : Int) (u : String) :
    u ∈ endUids events d ↔
      ∃ e ∈ events, e.type ≠ "closed" ∧ e.«end» = d ∧ e.uid = u := by
  simp only [endUids, List.mem_map, List.mem_filter, Bool.and_eq_true, bne_iff_ne,
    ne_eq, beq_iff_eq]
  constructor
  · rintro ⟨e, ⟨he, ht, hd⟩, hu⟩
    exact ⟨e, he, ht, hd, hu⟩
  · rintro ⟨e, he, ht, hd, hu⟩
    exact ⟨e, ⟨he, ht, hd⟩, hu⟩

/-- The checkout-uid set for day `d` is empty exactly when no reservation
ends on `d`. -/
theorem endUids_eq_nil (events : List Event) (d : Int) :
    endUids events d = [] ↔
      ∀ e ∈ events, e.type ≠ "closed" → e.«end» ≠ d := by
  simp only [endUids, List.map_eq_nil_iff, List.filter_eq_nil_iff, Bool.and_eq_true,
    bne_iff_ne, ne_eq, beq_iff_eq, not_and]

/-- The month renderer's quick-turn test, unfolded to its two parts. -/
theorem monthQuickTurn_eq_true (events : List Event) (d : Int) :
    monthQuickTurn events d = true ↔
      endUids events d ≠ [] ∧ ∃ u ∈ startUids events d, u ∉ endUids events d := by
  simp [monthQuickTurn]

/-- The rolling-window renderer's quick-turn set, characterized. -/
theorem mem_quickTurns (events : List Event) (d : Int) :
    d ∈ quickTurns events ↔
      (∃ e1 ∈ events, e1.type ≠ "closed" ∧ e1.start = d) ∧
      (∃ e2 ∈ events, e2.type ≠ "closed" ∧ e2.«end» = d) := by
  simp only [quickTurns, List.mem_filter, reservationStarts, reservationEnds,
    List.mem_map, List.contains_eq_any_beq, List.any_eq_true, beq_iff_eq,
    Bool.and_eq_true, bne_iff_ne, ne_eq]
  constructor
  · rintro ⟨⟨e1, ⟨h1, h1t⟩, h1d⟩, x, ⟨e2, ⟨h2, h2t⟩, h2d⟩, hdx⟩
    exact ⟨⟨e1, h1, h1t, h1d⟩, e2, h2, h2t, by rw [h2d, ← hdx]⟩
  · rintro ⟨⟨e1, h1, h1t, h1d⟩, e2, h2, h2t, h2d⟩
    exact ⟨⟨e1, ⟨h1, h1t⟩, h1d⟩, d, ⟨e2, ⟨h2, h2t⟩, h2d⟩, rfl⟩

/-- C6 amended: what the two renderers actually compute.  The
rolling-window renderer marks `d` exactly when some reservation starts on
`d` and some reservation ends on `d`, with no identity comparison (so a
single degenerate reservation does qualify there).  The month renderer
marks `d` exactly when some reservation ends on `d` and some reservation
starting on `d` has a uid different from every reservation ending on `d`;
in particular a single reservation alone never qualifies there. -/
theorem quick_turn_renderers_characterized (events : List Event) (d : Int) (e : Event) :
    (d ∈ quickTurns events ↔
      (∃ e1 ∈ events, e1.type ≠ "closed" ∧ e1.start = d) ∧
      (∃ e2 ∈ events, e2.type ≠ "closed" ∧ e2.«end» = d)) ∧
    (monthQuickTurn events d = true ↔
      (∃ e1 ∈ events, e1.type ≠ "closed" ∧ e1.«end» = d) ∧
      (∃ e2 ∈ events, e2.type ≠ "closed" ∧ e2.start = d ∧
        ∀ e3 ∈ events, e3.type ≠ "closed" → e3.«end» = d → e2.uid ≠ e3.uid)) ∧
    monthQuickTurn [e] d = false := by
  have hmonth : ∀ (evs : List Event) (x : Int), monthQuickTurn evs x = true ↔
      (∃ e1 ∈ evs, e1.type ≠ "closed" ∧ e1.«end» = x) ∧
      (∃ e2 ∈ evs, e2.type ≠ "closed" ∧ e2.start = x ∧
        ∀ e3 ∈ evs, e3.type ≠ "closed" → e3.«end» = x → e2.uid ≠ e3.uid) := by
    intro evs x
    rw [monthQuickTurn_eq_true]
    constructor
    · rintro ⟨hne, u, hu_start, hu_nin⟩
      rw [mem_startUids] at hu_start
      obtain ⟨e2, h2, h2t, h2d, h2u⟩ := hu_start
      constructor
      · by_contra hnone
        push_neg at hnone
        exact hne ((endUids_eq_nil evs x).mpr hnone)
      · refine ⟨e2, h2, h2t, h2d, fun e3 he3 ht3 hd3 hu3 => ?_⟩
        exact hu_nin ((mem_endUids evs x u).mpr ⟨e3, he3, ht3, hd3, by rw [← hu3, h2u]⟩)
    · rintro ⟨⟨e1, h1, h1t, h1d⟩, e2, h2, h2t, h2d, hall⟩
      refine ⟨List.ne_nil_of_mem ((mem_endUids evs x e1.uid).mpr ⟨e1, h1, h1t, h1d, rfl⟩), ?_⟩
      refine ⟨e2.uid, (mem_startUids evs x e2.uid).mpr ⟨e2, h2, h2t, h2d, rfl⟩, fun hin => ?_⟩
      obtain ⟨e3, h3, h3t, h3d, h3u⟩ := (mem_endUids evs x e2.uid).mp hin
      exact hall e3 h3 h3t h3d h3u.symm
  refine ⟨mem_quickTurns events d, hmonth events d, ?_⟩
  by_contra hb
  rw [Bool.not_eq_false] at hb
  obtain ⟨⟨e1, h1, h1t, h1d⟩, e2, h2, h2t, h2d, hall⟩ := (hmonth [e] d).mp hb
  rw [List.mem_singleton] at h1 h2
  exact hall e1 (by rw [List.mem_singleton, h1]) h1t h1d (by rw [h2, h1])

/-- C6 amended witness: the characterization applied to a concrete
degenerate reservation shows the month renderer never marks a lone
reservation's date. -/
theorem quick_turn_renderers_characterized_witness :
    monthQuickTurn [(⟨"a", "reservation", 5, 5, ""⟩ : Event)] 5 = false :=
  (quick_turn_renderers_characterized [] 5 (⟨"a", "reservation", 5, 5, ""⟩ : Event)).2.2

end CalendarEmbed
